import Mathlib

/-!
Verification development for the evaluation core of the tamarin scripting
runtime: the recursive tree-walking evaluator (dispatch, if/for/switch/pipe,
control signals, string templates), the breakpoint table of the `Evaluator`
constructor, and the `Builtin.Equals` method of the object layer.

The Go sources are embedded shallowly: Go structs become structures, the
mutually recursive evaluation functions become a fuel-indexed mutual
definition (fuel decreases on every recursive call, so the functions are
structurally recursive and computable), and the mutable scope chain becomes
explicit state passing over an arena of scope frames indexed by handle.
Parts of the repository that the evaluator calls but whose sources are not
part of the snapshot (the scope package, identifier/var/assign/call
evaluation, the builtin and value layer) are reconstructed from the design
document; each such definition carries a doc comment starting with
"Modelled from the spec:".
-/

namespace Tamarin

/-- Runtime values (the `object` package). `error` models `*object.Error`,
`control` models `*object.Control` (keyword is one of break/continue/return,
the payload is the return value), `builtin` and `func` model `*object.Builtin`
and `*object.Function`; their first field models the allocation (the Go
pointer), so two values built by distinct allocations differ in that field,
and `fnId` selects the wrapped behaviour from `builtinImpl`. `iter` models an
`object.Iterator` by the list of its remaining entries. -/
inductive Object where
  | nil
  | bool (b : Bool)
  | int (n : Int)
  | str (s : String)
  | listV (xs : List Object)
  | error (msg : String)
  | control (keyword : String) (value : Object)
  | builtin (id : Nat) (name : String) (fnId : Nat)
  | func (id : Nat) (fnId : Nat)
  | iter (entries : List (Object × Object))

/-- Models `object.IsError`: true exactly for `*object.Error` values. -/
def Object.isError : Object → Bool
  | .error _ => true
  | _ => false

/-- Modelled from the spec: the truthiness capability contract supplied by
the value layer ("every value type defines its own truthiness"). The
conventional definitions are used: false/nil/zero/empty are falsy,
everything else is truthy. -/
def Object.isTruthy : Object → Bool
  | .nil => false
  | .bool b => b
  | .int n => n != 0
  | .str s => s != ""
  | _ => true

/-- Models `Object.Type()` names used in evaluator error messages. -/
def Object.typeName : Object → String
  | .nil => "nil"
  | .bool _ => "bool"
  | .int _ => "int"
  | .str _ => "string"
  | .listV _ => "list"
  | .error _ => "error"
  | .control _ _ => "control"
  | .builtin _ _ _ => "builtin"
  | .func _ _ => "function"
  | .iter _ => "iterator"

/-- Modelled from the spec: the human-readable representation capability
(`Inspect`). Integers print in decimal (so the template example yields
"x=3!"), strings print quoted (the raw text is spliced by the template code
through the dedicated string branch, not through `inspect`), and the builtin
case follows `Builtin.Inspect` from `object/builtin.go` lines 58-63. The
representations of compound values are abbreviated since no verified claim
depends on them. -/
def Object.inspect : Object → String
  | .nil => "nil"
  | .bool true => "true"
  | .bool false => "false"
  | .int n => toString n
  | .str s => "\"" ++ s ++ "\""
  | .listV _ => "list"
  | .error m => "error(" ++ m ++ ")"
  | .control k _ => k
  | .builtin _ name _ => "builtin(" ++ name ++ ")"
  | .func _ _ => "function"
  | .iter _ => "iterator"

/-- Embedding of `Builtin.Equals` (object/builtin.go lines 106-111):
`if b == other { return True }; return False`. The Go comparison is pointer
identity between the receiver and the interface value `other`; in this
embedding a `*Builtin` pointer is represented by the full `(id, name, fnId)`
triple, where `id` models the allocation, so pointer identity is equality of
the triple. -/
def builtinEquals (id : Nat) (name : String) (fnId : Nat) (other : Object) : Object :=
  match other with
  | .builtin id2 name2 fnId2 =>
      if id == id2 && name == name2 && fnId == fnId2 then .bool true else .bool false
  | _ => .bool false

/-- Modelled from the spec: `object.Equals`, the structural-equality
capability used by `evalSwitch` (part_001 line 192). Primitive values compare
structurally; builtin values delegate to the `Builtin.Equals` method above
(identity comparison). Compound values are not needed by any verified claim
and compare unequal here. -/
def objectEquals (a b : Object) : Bool :=
  match a, b with
  | .nil, .nil => true
  | .bool x, .bool y => x == y
  | .int x, .int y => x == y
  | .str x, .str y => x == y
  | .builtin id name fnId, other =>
      match builtinEquals id name fnId other with
      | .bool r => r
      | _ => false
  | _, _ => false

/-- Modelled from the spec: the behaviours of the callable values used in the
verified examples, keyed by `fnId`. 0 is `sub(a, b) = a - b`, 1 is
`double(x) = 2 * x`, 2 returns the list of its arguments (which makes the
exact argument list of an invocation observable), 3 is `error()`, producing
an error value. -/
def builtinImpl : Nat → List Object → Object
  | 0, [.int a, .int b] => .int (a - b)
  | 0, _ => .error "type error: sub expects two int arguments"
  | 1, [.int a] => .int (2 * a)
  | 1, _ => .error "type error: double expects one int argument"
  | 2, args => .listV args
  | 3, _ => .error "boom"
  | _, _ => .error "eval error: unknown builtin"

/-- Modelled from the spec: `applyFunction`, the function-invocation hook
("invoke user-defined functions by (scope, function-value, arguments) ->
signal"). Builtin and function values are invoked on the argument list via
the behaviour table; any other value is not callable. -/
def applyFunction (fn : Object) (args : List Object) : Object :=
  match fn with
  | .builtin _ _ fnId => builtinImpl fnId args
  | .func _ fnId => builtinImpl fnId args
  | other => .error ("type error: " ++ other.typeName ++ " is not callable")

/-- Modelled from the spec: `evalObjectCall`, dispatch of a named method on
an evaluated object. A single method `collect` is provided, returning the
receiver followed by the argument list, which makes the argument order of a
method-style pipe stage observable. -/
def evalObjectCallImpl (obj : Object) (method : String) (args : List Object) : Object :=
  if method == "collect" then .listV (obj :: args)
  else .error ("type error: no such method " ++ method)

/-- Modelled from the spec: the builtin registry consulted by identifier
resolution after the scope chain ("a mapping from a qualified name ... to a
callable"). Distinct entries receive distinct allocation ids. -/
def builtinsLookup (name : String) : Option Object :=
  if name == "sub" then some (.builtin 1 "sub" 0)
  else if name == "double" then some (.builtin 2 "double" 1)
  else if name == "listArgs" then some (.builtin 3 "listArgs" 2)
  else if name == "error" then some (.builtin 4 "error" 3)
  else none

/-! ## Breakpoints (core/evaluator/evaluator.go) -/

/-- Embedding of the `Breakpoint` struct (evaluator.go lines 16-28). -/
structure Breakpoint where
  file : String
  line : Nat
  disabled : Bool
  trace : Bool
  stop : Bool
deriving DecidableEq

/-- The `"file:line"` key under which `New` indexes a breakpoint
(evaluator.go line 75) and which `GetBreakpoint` looks up (lines 95-97). -/
def breakpointKey (file : String) (line : Nat) : String :=
  file ++ ":" ++ toString line

/-- Embedding of the breakpoint-registration loop of `New` (evaluator.go
lines 73-76): `for _, b := range opts.Breakpoints { e.breakpoints[key] = &b }`.
The module (github.com/cloudcmds/tamarin) predates Go 1.22, so the loop
variable `b` is a single variable shared by all iterations; `&b` therefore
stores the same pointer under every key, while the keys themselves are
computed from each element in turn. The loop state is the shared cell
(holding, after the loop, the value written by the final iteration) together
with the set of registered keys. -/
def registerBreakpoints : List Breakpoint → Option Breakpoint → List String →
    Option Breakpoint × List String
  | [], cell, keys => (cell, keys)
  | b :: rest, _cell, keys =>
      registerBreakpoints rest (some b) (keys ++ [breakpointKey b.file b.line])

/-- The breakpoint table built by `New` from the supplied breakpoint list. -/
def newBreakpointTable (bps : List Breakpoint) : Option Breakpoint × List String :=
  registerBreakpoints bps none []

/-- Embedding of `GetBreakpoint` (evaluator.go lines 91-99): an empty table
answers nothing; otherwise the `"file:line"` key is looked up and the stored
pointer is dereferenced, yielding the current contents of the shared cell. -/
def getBreakpoint (table : Option Breakpoint × List String) (file : String) (line : Nat) :
    Option Breakpoint :=
  if table.2.isEmpty then none
  else if table.2.contains (breakpointKey file line) then table.1
  else none

/-! ## Scope chain (the `scope` package, absent from the snapshot)

The scope chain is a mutable tree of frames; here it is an arena: frame
handles are indices into `EvalState.frames`, `newChild` appends a frame, and
mutation replaces a frame in place. -/

/-- Modelled from the spec: one scope record - "a mapping from name to value
plus an optional parent link"; each entry also remembers whether it was
const-declared. -/
structure Frame where
  parent : Option Nat
  vars : List (String × Object × Bool)

/-- The arena of scope frames; a scope handle is an index into `frames`. -/
structure EvalState where
  frames : List Frame

/-- The frame stored under a handle (an absent handle reads as an empty,
parentless frame; evaluation only ever uses handles it created). -/
def getFrame (st : EvalState) (sid : Nat) : Frame :=
  (st.frames.get? sid).getD ⟨none, []⟩

/-- Replace the frame stored under a handle. -/
def setFrame (st : EvalState) (sid : Nat) (f : Frame) : EvalState :=
  ⟨st.frames.set sid f⟩

/-- Lookup of a name among the entries of one frame. -/
def frameLookup : List (String × Object × Bool) → String → Option (Object × Bool)
  | [], _ => none
  | (n, v, c) :: rest, name => if n == name then some (v, c) else frameLookup rest name

/-- Replace the value bound to a name inside one frame's entry list. -/
def frameUpdate : List (String × Object × Bool) → String → Object →
    List (String × Object × Bool)
  | [], _, _ => []
  | (n, v, c) :: rest, name, value =>
      if n == name then (n, value, c) :: rest else (n, v, c) :: frameUpdate rest name value

/-- Modelled from the spec: `lookup(name)` - "lookup walks from the scope
outward, stopping at the first definition". The walk is bounded by a depth
argument; handles created by `newChild` always point to strictly smaller
parent handles, so a bound of `sid + 1` covers every chain evaluation can
build. -/
def walkLookup (st : EvalState) : Nat → Nat → String → Option Object
  | 0, _, _ => none
  | Nat.succ depth, sid, name =>
      match frameLookup (getFrame st sid).vars name with
      | some (v, _) => some v
      | none =>
          match (getFrame st sid).parent with
          | some p => walkLookup st depth p name
          | none => none

/-- Lookup of a name starting from a scope handle. -/
def scopeLookup (st : EvalState) (sid : Nat) (name : String) : Option Object :=
  walkLookup st (sid + 1) sid name

/-- Modelled from the spec: `assign(name, value) -> ok|UndeclaredOrConstError`;
assign walks the parent chain to the first frame declaring the name and
fails on const entries and undeclared names ("Constants are enforced at
assign-time"). -/
def walkAssign (st : EvalState) : Nat → Nat → String → Object → Except String EvalState
  | 0, _, name, _ => .error ("eval error: " ++ name ++ " is not declared")
  | Nat.succ depth, sid, name, value =>
      match frameLookup (getFrame st sid).vars name with
      | some (_, true) => .error ("eval error: cannot assign to constant " ++ name)
      | some (_, false) =>
          .ok (setFrame st sid ⟨(getFrame st sid).parent,
            frameUpdate (getFrame st sid).vars name value⟩)
      | none =>
          match (getFrame st sid).parent with
          | some p => walkAssign st depth p name value
          | none => .error ("eval error: " ++ name ++ " is not declared")

/-- Assignment to a name starting from a scope handle. -/
def scopeAssign (st : EvalState) (sid : Nat) (name : String) (value : Object) :
    Except String EvalState :=
  walkAssign st (sid + 1) sid name value

/-- Modelled from the spec: `declare(name, value, isConst) ->
ok|AlreadyDeclaredError`; "declare always targets the local scope only". -/
def scopeDeclare (st : EvalState) (sid : Nat) (name : String) (value : Object)
    (isConst : Bool) : Except String EvalState :=
  if (frameLookup (getFrame st sid).vars name).isSome then
    .error ("scope error: " ++ name ++ " is already declared")
  else
    .ok (setFrame st sid ⟨(getFrame st sid).parent,
      (getFrame st sid).vars ++ [(name, value, isConst)]⟩)

/-- Modelled from the spec: the binding performed by a `var` statement
(`name := expr`). It targets the local scope, replacing an existing local
binding: the design document's condition-form example re-runs the post
statement `i := i + 1` in the unchanged outer for scope every iteration, so
re-binding an existing local name must succeed (unlike `scopeDeclare`,
which the iterator loop uses on a freshly cleared scope). -/
def scopeVarBind (st : EvalState) (sid : Nat) (name : String) (value : Object) : EvalState :=
  if (frameLookup (getFrame st sid).vars name).isSome then
    setFrame st sid ⟨(getFrame st sid).parent,
      frameUpdate (getFrame st sid).vars name value⟩
  else
    setFrame st sid ⟨(getFrame st sid).parent,
      (getFrame st sid).vars ++ [(name, value, false)]⟩

/-- Modelled from the spec: `Clear()` - "removes all entries in exactly one
scope without severing the parent link". -/
def clearScope (st : EvalState) (sid : Nat) : EvalState :=
  setFrame st sid ⟨(getFrame st sid).parent, []⟩

/-- Modelled from the spec: `newChild` - creates a scope whose parent link
points back to the given scope; the new handle is the next arena index. -/
def newChild (st : EvalState) (sid : Nat) : Nat × EvalState :=
  (st.frames.length, ⟨st.frames ++ [⟨some sid, []⟩]⟩)

/-! ## Syntax tree (the `ast` package, absent from the snapshot) -/

/-- Embedding of a string-template fragment: either literal text or a
placeholder for one embedded expression. -/
structure Fragment where
  isVariable : Bool
  value : String

/-- Modelled from the spec: the syntax-node variants the verified claims
exercise. A `switch` choice is a triple (isDefault, candidate expressions,
block statements); `strLit` carries the raw value, the optional template
fragment list and the template expression slots (a slot may be absent);
`forLoop` carries the four sub-nodes that `ast.For` exposes through
`Init`/`Condition`/`Post`/`Consequence`. -/
inductive Ast where
  | intLit (n : Int)
  | boolLit (b : Bool)
  | nilLit
  | strLit (value : String) (template : Option (List Fragment)) (exprs : List (Option Ast))
  | ident (name : String)
  | block (stmts : List Ast)
  | varStmt (name : String) (expr : Ast)
  | constStmt (name : String) (expr : Ast)
  | assign (name : String) (expr : Ast)
  | multiVar (names : List String) (expr : Ast)
  | binop (op : String) (left : Ast) (right : Ast)
  | ifExpr (cond : Ast) (cons : Ast) (alt : Option Ast)
  | forLoop (init : Option Ast) (cond : Option Ast) (post : Option Ast) (body : Ast)
  | switch (subject : Ast) (choices : List (Bool × List Ast × List Ast))
  | pipe (exprs : List Ast)
  | call (function : Ast) (arguments : List Ast)
  | objectCall (obj : Ast) (method : String) (arguments : List Ast)
  | controlStmt (keyword : String) (value : Option Ast)
  | rangeExpr (container : Ast)
  | listLit (elems : List Ast)

/-- Modelled from the spec: `ast.For.IsSimpleLoop` - the `for { ... }` form
has no init, condition or post sub-node. -/
def isSimpleLoop (init cond post : Option Ast) : Bool :=
  init.isNone && cond.isNone && post.isNone

/-- Modelled from the spec: `ast.For.IsIteratorLoop` - the iterator form's
condition is a single- or multi-name binding whose right-hand side supplies
the iterator. -/
def isIteratorLoop : Option Ast → Bool
  | some (.varStmt _ _) => true
  | some (.multiVar _ _) => true
  | _ => false

/-- The condition analysis of `evalIteratorForLoop` (part_001 lines 118-133):
a `Var` condition binds one name, a `MultiVar` condition binds its name list,
anything else - or a name count outside 1..2 - is rejected (the caller turns
`none` into "eval error: invalid for loop condition", the message of both
rejection sites). -/
def forLoopBindings : Option Ast → Option (String × Option String × Ast)
  | some (.varStmt name e) => some (name, none, e)
  | some (.multiVar [n] e) => some (n, none, e)
  | some (.multiVar [n1, n2] e) => some (n1, some n2, e)
  | _ => none

/-- The scan for the first default choice used when no case matched
(part_001 lines 198-202). -/
def findDefaultBlock : List (Bool × List Ast × List Ast) → Option (List Ast)
  | [] => none
  | (true, _, blk) :: _ => some blk
  | (false, _, _) :: rest => findDefaultBlock rest

/-- Embedding of `prependObject` (part_001 lines 206-211): the append/copy
dance inserts `obj` in front of `slice`. -/
def prependObject (slice : List Object) (obj : Object) : List Object :=
  obj :: slice

/-- The error convention of `evalExpressions`: a failed argument list is the
one-element list holding the error (checked by its callers as
`len(args) == 1 && object.IsError(args[0])`). -/
def singletonError : List Object → Option Object
  | [x] => if x.isError then some x else none
  | _ => none

/-- Modelled from the spec: the iterator a list container yields - entries
expose `Key()` (the index) and `Value()` (the element). -/
def listIterEntries (xs : List Object) : List (Object × Object) :=
  (List.enum xs).map (fun p => (Object.int (Int.ofNat p.1), p.2))

/-- Modelled from the spec: the arithmetic/comparison operations of the
value layer needed by the verified examples. -/
def evalBinop (op : String) (l r : Object) : Object :=
  if op == "+" then
    match l, r with
    | .int a, .int b => .int (a + b)
    | .str a, .str b => .str (a ++ b)
    | _, _ => .error "type error: unsupported operand types"
  else if op == "-" then
    match l, r with
    | .int a, .int b => .int (a - b)
    | _, _ => .error "type error: unsupported operand types"
  else if op == "<" then
    match l, r with
    | .int a, .int b => .bool (decide (a < b))
    | _, _ => .error "type error: unsupported operand types"
  else if op == "==" then
    .bool (objectEquals l r)
  else
    .error ("eval error: unknown operator: " ++ op)

/-- The evaluation context: a cooperative cancellation token (`ctx.Done()`)
together with the cancellation cause (`ctx.Err()`). -/
structure Ctx where
  cancelled : Bool
  cancelCause : String

/-- The error produced when the step budget of this embedding runs out; the
Go evaluator has no such budget (a non-terminating loop simply never
returns), so theorems about terminating runs pick a sufficient budget. -/
def fuelErr : Object :=
  .error "eval error: evaluation fuel exhausted"

/-! ## The evaluator

One mutual, fuel-indexed definition. `evalAst` embeds `Evaluate`
(core/evaluator/evaluator.go lines 133-240) with the bodies of the
single-shot construct evaluators (`evalIf`, `evalFor`, `evalControl`,
`evalRange`, `evalSwitch`'s and `evalPipe`'s entry, `evalStringLiteral`'s
entry) inlined at their dispatch sites; the looping parts are the other
members of the mutual block. The fuel decreases on every recursive call, so
the definitions are structurally recursive and compute by reduction.
`trackExecution` (evaluator.go lines 101-129) only prints and always returns
nil, so statement dispatch continues unconditionally and the breakpoint
table needs no place in the evaluation state; it is modelled separately
above. -/

set_option maxHeartbeats 2000000

mutual

/-- Embedding of `Evaluate` (evaluator.go lines 133-240): check the
cancellation token before anything else, then dispatch on the node kind. -/
def evalAst (ctx : Ctx) : Nat → Ast → Nat → EvalState → Object × EvalState
  | 0, _, _, st =>
      if ctx.cancelled then (.error ctx.cancelCause, st) else (fuelErr, st)
  | Nat.succ fuel, node, sid, st =>
      if ctx.cancelled then (.error ctx.cancelCause, st)
      else
        match node with
        | .intLit n => (.int n, st)
        | .boolLit b => (.bool b, st)
        | .nilLit => (.nil, st)
        | .listLit elems =>
            -- Modelled from the spec: evalListLiteral evaluates the element
            -- expressions in order and collects them
            let (vals, st1) := evalExpressions ctx fuel elems sid st
            match singletonError vals with
            | some e => (e, st1)
            | none => (.listV vals, st1)
        | .strLit value template exprs =>
            -- evalStringLiteral (part_000 lines 12-45)
            match template with
            | none => (.str value, st)
            | some frags => evalFragments ctx fuel frags exprs 0 [] sid st
        | .ident name =>
            -- Modelled from the spec: evalIdentifier resolves through the
            -- scope chain first, then the builtin registry
            match scopeLookup st sid name with
            | some v => (v, st)
            | none =>
                match builtinsLookup name with
                | some b => (b, st)
                | none => (.error ("eval error: " ++ name ++ " is not defined"), st)
        | .varStmt name expr =>
            -- Modelled from the spec: a var statement evaluates its
            -- right-hand side and binds the name in the local scope
            let (v, st1) := evalAst ctx fuel expr sid st
            if v.isError then (v, st1) else (.nil, scopeVarBind st1 sid name v)
        | .constStmt name expr =>
            -- Modelled from the spec: a const statement declares the name as
            -- a constant in the local scope
            let (v, st1) := evalAst ctx fuel expr sid st
            if v.isError then (v, st1)
            else
              match scopeDeclare st1 sid name v true with
              | .error m => (.error m, st1)
              | .ok st2 => (.nil, st2)
        | .assign name expr =>
            -- Modelled from the spec: assignment walks the scope chain
            let (v, st1) := evalAst ctx fuel expr sid st
            if v.isError then (v, st1)
            else
              match scopeAssign st1 sid name v with
              | .error m => (.error m, st1)
              | .ok st2 => (.nil, st2)
        | .multiVar _ _ =>
            -- only meaningful as the condition of an iterator-form for loop
            (.error "eval error: invalid multi-variable declaration", st)
        | .binop op l r =>
            -- Modelled from the spec: evalInfixExpression evaluates the
            -- operands left to right and applies the value-layer operation
            let (lv, st1) := evalAst ctx fuel l sid st
            if lv.isError then (lv, st1)
            else
              let (rv, st2) := evalAst ctx fuel r sid st1
              if rv.isError then (rv, st2) else (evalBinop op lv rv, st2)
        | .ifExpr cond cons alt =>
            -- evalIf (part_001 lines 13-24)
            let (c, st1) := evalAst ctx fuel cond sid st
            if c.isError then (c, st1)
            else if c.isTruthy then evalAst ctx fuel cons sid st1
            else
              match alt with
              | some a => evalAst ctx fuel a sid st1
              | none => (.nil, st1)
        | .block stmts => evalBlockStmts ctx fuel stmts sid st
        | .controlStmt keyword value =>
            -- evalControl (part_001 lines 314-333)
            if keyword == "break" then (.control "break" .nil, st)
            else if keyword == "continue" then (.control "continue" .nil, st)
            else if keyword == "return" then
              match value with
              | none => (.control "return" .nil, st)
              | some e =>
                  let (v, st1) := evalAst ctx fuel e sid st
                  if v.isError then (v, st1) else (.control "return" v, st1)
            else (.error ("eval error: invalid control keyword: " ++ keyword), st)
        | .rangeExpr container =>
            -- evalRange (part_001 lines 342-352)
            let (v, st1) := evalAst ctx fuel container sid st
            if v.isError then (v, st1)
            else
              match v with
              | .listV xs => (.iter (listIterEntries xs), st1)
              | other => (.error ("type error: " ++ other.typeName ++ " is not a container"), st1)
        | .call function arguments =>
            -- Modelled from the spec: a plain call evaluates the callee and
            -- each explicit argument, then invokes
            let (fn, st1) := evalAst ctx fuel function sid st
            if fn.isError then (fn, st1)
            else
              let (args, st2) := evalExpressions ctx fuel arguments sid st1
              match singletonError args with
              | some e => (e, st2)
              | none => (applyFunction fn args, st2)
        | .objectCall objExpr method arguments =>
            -- Modelled from the spec: a method-style call evaluates the
            -- receiver and the arguments, then dispatches the named method
            let (obj, st1) := evalAst ctx fuel objExpr sid st
            if obj.isError then (obj, st1)
            else
              let (args, st2) := evalExpressions ctx fuel arguments sid st1
              match singletonError args with
              | some e => (e, st2)
              | none => (evalObjectCallImpl obj method args, st2)
        | .forLoop init cond post body =>
            -- evalFor (part_001 lines 26-88): two nested scopes, init once
            -- in the outer for scope, then one of the three loop forms
            let (forSid, st1) := newChild st sid
            let (loopSid, st2) := newChild st1 forSid
            let (initRes, st3) :=
              match init with
              | some i => evalAst ctx fuel i forSid st2
              | none => (Object.nil, st2)
            if initRes.isError then (initRes, st3)
            else if isSimpleLoop init cond post then
              evalSimpleForLoop ctx fuel body loopSid .nil st3
            else if isIteratorLoop cond then
              -- evalIteratorForLoop (part_001 lines 114-143): analyse the
              -- condition, evaluate the iterator expression, then iterate
              match forLoopBindings cond with
              | none => (.error "eval error: invalid for loop condition", st3)
              | some (name1, name2, iterExpr) =>
                  let (iterObj, st4) := evalAst ctx fuel iterExpr loopSid st3
                  if iterObj.isError then (iterObj, st4)
                  else
                    match iterObj with
                    | .iter entries =>
                        evalIterLoop ctx fuel name1 name2 entries body loopSid .nil st4
                    | other =>
                        (.error ("eval error: cannot iterate over " ++ other.typeName), st4)
            else
              match cond with
              | some c => evalCondForLoop ctx fuel c post body forSid loopSid .nil st3
              | none => (.error "eval error: invalid for loop condition", st3)
        | .switch subject choices =>
            -- evalSwitch (part_001 lines 178-204): the subject is evaluated
            -- once, then the cases are scanned
            let (value, st1) := evalAst ctx fuel subject sid st
            if value.isError then (value, st1)
            else evalSwitchCases ctx fuel value choices choices sid st1
        | .pipe exprs =>
            -- evalPipe (part_001 lines 213-222): at least two expressions;
            -- the first seeds the piped value, the rest are the stages
            match exprs with
            | e0 :: e1 :: rest =>
                let (first, st1) := evalAst ctx fuel e0 sid st
                if first.isError then (first, st1)
                else evalPipeStages ctx fuel (e1 :: rest) 0 (some first) sid st1
            | other =>
                (.error ("eval error: invalid pipe expression (got only " ++
                  toString other.length ++ " arguments)"), st)
termination_by structural fuel => fuel

/-- Embedding of `evalExpressions`: arguments evaluate in order; the first
error aborts and becomes the one-element result list. -/
def evalExpressions (ctx : Ctx) : Nat → List Ast → Nat → EvalState →
    List Object × EvalState
  | 0, _, _, st => ([fuelErr], st)
  | Nat.succ fuel, exprs, sid, st =>
      match exprs with
      | [] => ([], st)
      | e :: rest =>
          let (v, st1) := evalAst ctx fuel e sid st
          if v.isError then ([v], st1)
          else
            let (vs, st2) := evalExpressions ctx fuel rest sid st1
            match singletonError vs with
            | some err => ([err], st2)
            | none => (v :: vs, st2)
termination_by structural fuel => fuel

/-- Modelled from the spec: `evalBlockStatement` - statements run in order;
an error or control signal is returned at once, otherwise the block yields
the last statement's value (nil when empty). -/
def evalBlockStmts (ctx : Ctx) : Nat → List Ast → Nat → EvalState → Object × EvalState
  | 0, _, _, st => (fuelErr, st)
  | Nat.succ fuel, stmts, sid, st =>
      match stmts with
      | [] => (.nil, st)
      | stmt :: rest =>
          let (r, st1) := evalAst ctx fuel stmt sid st
          match r with
          | .error m => (.error m, st1)
          | .control k v => (.control k v, st1)
          | r2 =>
              match rest with
              | [] => (r2, st1)
              | _ => evalBlockStmts ctx fuel rest sid st1
termination_by structural fuel => fuel

/-- Embedding of `evalSimpleForLoop` (part_001 lines 90-112): clear the loop
scope, run the body, then dispatch on the resulting signal. -/
def evalSimpleForLoop (ctx : Ctx) : Nat → Ast → Nat → Object → EvalState →
    Object × EvalState
  | 0, _, _, _, st => (fuelErr, st)
  | Nat.succ fuel, body, sid, latest, st =>
      let st1 := clearScope st sid
      let (result, st2) := evalAst ctx fuel body sid st1
      match result with
      | .error m => (.error m, st2)
      | .control "break" _ => (latest, st2)
      | .control "continue" _ => evalSimpleForLoop ctx fuel body sid latest st2
      | .control "return" v => (.control "return" v, st2)
      | r => evalSimpleForLoop ctx fuel body sid r st2
termination_by structural fuel => fuel

/-- Embedding of the condition-form loop of `evalFor` (part_001 lines
50-87): clear the loop scope, evaluate the condition in the for scope, and
when truthy run the body in the loop scope and the post statement in the for
scope. A `continue` control signal leaves `latest` untouched but still runs
the post statement; `break` yields `latest`. -/
def evalCondForLoop (ctx : Ctx) : Nat → Ast → Option Ast → Ast → Nat → Nat → Object →
    EvalState → Object × EvalState
  | 0, _, _, _, _, _, _, st => (fuelErr, st)
  | Nat.succ fuel, cond, post, body, forSid, loopSid, latest, st =>
      let st1 := clearScope st loopSid
      let (c, st2) := evalAst ctx fuel cond forSid st1
      if c.isError then (c, st2)
      else if c.isTruthy then
        let (rt, st3) := evalAst ctx fuel body loopSid st2
        match rt with
        | .error m => (.error m, st3)
        | .control kw v =>
            if kw == "break" then (latest, st3)
            else if kw == "return" then (.control kw v, st3)
            else
              match post with
              | some p =>
                  let (pr, st4) := evalAst ctx fuel p forSid st3
                  if pr.isError then (pr, st4)
                  else evalCondForLoop ctx fuel cond post body forSid loopSid latest st4
              | none => evalCondForLoop ctx fuel cond post body forSid loopSid latest st3
        | r =>
            match post with
            | some p =>
                let (pr, st4) := evalAst ctx fuel p forSid st3
                if pr.isError then (pr, st4)
                else evalCondForLoop ctx fuel cond post body forSid loopSid r st4
            | none => evalCondForLoop ctx fuel cond post body forSid loopSid r st3
      else (latest, st2)
termination_by structural fuel => fuel

/-- Embedding of the iteration loop of `evalIteratorForLoop` (part_001 lines
145-175): clear the loop scope, pull the next entry, declare the bound
name(s) fresh, run the body, dispatch on the signal. -/
def evalIterLoop (ctx : Ctx) : Nat → String → Option String →
    List (Object × Object) → Ast → Nat → Object → EvalState → Object × EvalState
  | 0, _, _, _, _, _, _, st => (fuelErr, st)
  | Nat.succ fuel, name1, name2, entries, body, sid, latest, st =>
      let st1 := clearScope st sid
      match entries with
      | [] => (latest, st1)
      | (k, v) :: rest =>
          match scopeDeclare st1 sid name1 k false with
          | .error m => (.error m, st1)
          | .ok st2 =>
              let declared :=
                match name2 with
                | some n2 => scopeDeclare st2 sid n2 v false
                | none => .ok st2
              match declared with
              | .error m => (.error m, st2)
              | .ok st3 =>
                  let (rt, st4) := evalAst ctx fuel body sid st3
                  match rt with
                  | .error m => (.error m, st4)
                  | .control "break" _ => (latest, st4)
                  | .control "return" cv => (.control "return" cv, st4)
                  | .control _ _ => evalIterLoop ctx fuel name1 name2 rest body sid latest st4
                  | r => evalIterLoop ctx fuel name1 name2 rest body sid r st4
termination_by structural fuel => fuel

/-- Embedding of the case scan of `evalSwitch` (part_001 lines 183-203):
default choices are skipped on the first pass; when the remaining list is
exhausted without a match the first default block of the original choice
list runs, else the result is nil. -/
def evalSwitchCases (ctx : Ctx) : Nat → Object → List (Bool × List Ast × List Ast) →
    List (Bool × List Ast × List Ast) → Nat → EvalState → Object × EvalState
  | 0, _, _, _, _, st => (fuelErr, st)
  | Nat.succ fuel, value, remaining, original, sid, st =>
      match remaining with
      | [] =>
          match findDefaultBlock original with
          | some blk => evalBlockStmts ctx fuel blk sid st
          | none => (.nil, st)
      | (isDef, cands, blk) :: rest =>
          if isDef then evalSwitchCases ctx fuel value rest original sid st
          else evalSwitchCands ctx fuel value cands blk rest original sid st
termination_by structural fuel => fuel

/-- Embedding of the candidate scan within one case (part_001 lines
187-195): candidates evaluate in declared order; the first structural match
runs the case's block and ends the switch. -/
def evalSwitchCands (ctx : Ctx) : Nat → Object → List Ast → List Ast →
    List (Bool × List Ast × List Ast) → List (Bool × List Ast × List Ast) → Nat →
    EvalState → Object × EvalState
  | 0, _, _, _, _, _, _, st => (fuelErr, st)
  | Nat.succ fuel, value, cands, blk, rest, original, sid, st =>
      match cands with
      | [] => evalSwitchCases ctx fuel value rest original sid st
      | cand :: more =>
          let (out, st1) := evalAst ctx fuel cand sid st
          if out.isError then (out, st1)
          else if objectEquals value out then evalBlockStmts ctx fuel blk sid st1
          else evalSwitchCands ctx fuel value more blk rest original sid st1
termination_by structural fuel => fuel

/-- Embedding of the stage loop of `evalPipe` (part_001 lines 224-311).
`i` is the loop index over the stages (the expressions after the source),
`nextArg` the Go variable of the same name: an `object.Object` interface
value that is nil only if a sub-evaluation returned an untyped nil
(modelled as `none`; `evalAst` always produces a value, so the pipe entry
seeds it with `some`). -/
def evalPipeStages (ctx : Ctx) : Nat → List Ast → Nat → Option Object → Nat →
    EvalState → Object × EvalState
  | 0, _, _, _, _, st => (fuelErr, st)
  | Nat.succ fuel, stages, i, nextArg, sid, st =>
      match stages with
      | [] =>
          -- lines 308-311
          match nextArg with
          | some v => (v, st)
          | none => (.nil, st)
      | expr :: rest =>
          match expr with
          | .call function arguments =>
              -- plain-call stage (lines 226-249)
              let (fn, st1) := evalAst ctx fuel function sid st
              if fn.isError then (fn, st1)
              else
                let (args0, st2) :=
                  if arguments.isEmpty then ([], st1)
                  else evalExpressions ctx fuel arguments sid st1
                match singletonError args0 with
                | some e => (e, st2)
                | none =>
                    let args :=
                      match nextArg with
                      | some v => prependObject args0 v
                      | none => args0
                    let res := applyFunction fn args
                    if res.isError then (res, st2)
                    else evalPipeStages ctx fuel rest (i + 1) (some res) sid st2
          | .objectCall objExpr method arguments =>
              -- method-style stage (lines 250-278)
              let (obj, st1) := evalAst ctx fuel objExpr sid st
              if obj.isError then (obj, st1)
              else
                let (args0, st2) :=
                  if arguments.isEmpty then ([], st1)
                  else evalExpressions ctx fuel arguments sid st1
                match singletonError args0 with
                | some e => (e, st2)
                | none =>
                    let args :=
                      match nextArg with
                      | some v => prependObject args0 v
                      | none => args0
                    let res := evalObjectCallImpl obj method args
                    if res.isError then (res, st2)
                    else evalPipeStages ctx fuel rest (i + 1) (some res) sid st2
          | other =>
              -- bare-expression stage (lines 279-305)
              let (obj, st1) := evalAst ctx fuel other sid st
              if obj.isError then (obj, st1)
              else
                match obj with
                | .func a b =>
                    let args :=
                      match nextArg with
                      | some v => [v]
                      | none => []
                    let res := applyFunction (.func a b) args
                    if res.isError then (res, st1)
                    else evalPipeStages ctx fuel rest (i + 1) (some res) sid st1
                | .builtin a n b =>
                    let args :=
                      match nextArg with
                      | some v => [v]
                      | none => []
                    let res := applyFunction (.builtin a n b) args
                    if res.isError then (res, st1)
                    else evalPipeStages ctx fuel rest (i + 1) (some res) sid st1
                | nonCallable =>
                    if i == 0 then
                      -- first stage after the source: the value becomes the
                      -- piped value (line 299-301)
                      evalPipeStages ctx fuel rest (i + 1) (some nonCallable) sid st1
                    else
                      (.error ("type error: unexpected " ++ nonCallable.typeName ++
                        " object in pipe expression"), st1)
termination_by structural fuel => fuel

/-- Embedding of the fragment walk of `evalStringLiteral` (part_000 lines
19-44): literal fragments splice their text; variable fragments consume the
next expression slot - an absent slot splices empty text, an error aborts
the literal, a string splices its raw value, anything else its
human-readable representation. The Go code evaluates each slot with a
freshly constructed evaluator (`New(Opts{})`); evaluator identity carries no
semantics in this embedding, so the recursion is plain. -/
def evalFragments (ctx : Ctx) : Nat → List Fragment → List (Option Ast) → Nat →
    List String → Nat → EvalState → Object × EvalState
  | 0, _, _, _, _, _, st => (fuelErr, st)
  | Nat.succ fuel, frags, exprs, exprIndex, parts, sid, st =>
      match frags with
      | [] => (.str (String.join parts), st)
      | f :: rest =>
          if f.isVariable then
            match (exprs.get? exprIndex).getD none with
            | none =>
                evalFragments ctx fuel rest exprs (exprIndex + 1) (parts ++ [""]) sid st
            | some e =>
                let (obj, st1) := evalAst ctx fuel e sid st
                match obj with
                | .error m => (.error m, st1)
                | .str s =>
                    evalFragments ctx fuel rest exprs (exprIndex + 1) (parts ++ [s]) sid st1
                | other =>
                    evalFragments ctx fuel rest exprs (exprIndex + 1)
                      (parts ++ [other.inspect]) sid st1
          else
            evalFragments ctx fuel rest exprs exprIndex (parts ++ [f.value]) sid st
termination_by structural fuel => fuel

end

/-! ## Concrete fixtures used by the theorems -/

set_option maxRecDepth 100000

/-- An evaluation context whose cancellation token has not fired. -/
def ctx0 : Ctx := ⟨false, "context canceled"⟩

/-- An evaluation context whose cancellation token has fired; the cause is
the standard message of a cancelled Go context. -/
def ctxCancelled : Ctx := ⟨true, "context canceled"⟩

/-- An initial state holding a single root scope. -/
def st0 : EvalState := ⟨[⟨none, []⟩]⟩

/-- The call `error()` of the error-producing builtin. -/
def errCall : Ast := .call (.ident "error") []

/-- The program `for { error() }`. -/
def forErrorProg : Ast := .forLoop none none none (.block [errCall])

/-- The design document's condition-form example:
`sum := 0; for i := 0; i < 3; i := i + 1 { sum = sum + i }; sum`. -/
def sumProg : Ast := .block [
  .varStmt "sum" (.intLit 0),
  .forLoop (some (.varStmt "i" (.intLit 0)))
    (some (.binop "<" (.ident "i") (.intLit 3)))
    (some (.varStmt "i" (.binop "+" (.ident "i") (.intLit 1))))
    (.block [.assign "sum" (.binop "+" (.ident "sum") (.ident "i"))]),
  .ident "sum"]

/-- The same loop instrumented with a counter of body executions; the
program yields the pair (sum, cnt). -/
def sumCountProg : Ast := .block [
  .varStmt "sum" (.intLit 0),
  .varStmt "cnt" (.intLit 0),
  .forLoop (some (.varStmt "i" (.intLit 0)))
    (some (.binop "<" (.ident "i") (.intLit 3)))
    (some (.varStmt "i" (.binop "+" (.ident "i") (.intLit 1))))
    (.block [.assign "sum" (.binop "+" (.ident "sum") (.ident "i")),
             .assign "cnt" (.binop "+" (.ident "cnt") (.intLit 1))]),
  .listLit [.ident "sum", .ident "cnt"]]

/-- A condition-form loop whose condition is falsy at once: the body never
runs and the loop value is nil. -/
def zeroIterProg : Ast :=
  .forLoop (some (.varStmt "i" (.intLit 0)))
    (some (.binop "<" (.ident "i") (.intLit 0)))
    (some (.varStmt "i" (.binop "+" (.ident "i") (.intLit 1))))
    (.block [.intLit 9])

/-- Iterator-form demo for scope clearing: the body const-declares `x`
(strict declaration, part_001 line 152 uses `Declare` right after `Clear`)
and counts iterations in the outer variable `out` through the parent link. -/
def iterClearProg : Ast := .block [
  .varStmt "out" (.intLit 0),
  .forLoop none
    (some (.varStmt "k" (.rangeExpr (.listLit [.intLit 10, .intLit 20]))))
    none
    (.block [.constStmt "x" (.intLit 1),
             .assign "out" (.binop "+" (.ident "out") (.intLit 1))]),
  .ident "out"]

/-- Simple-form demo for scope clearing: the body const-declares `x` every
iteration and breaks after the second one. -/
def simpleClearProg : Ast := .block [
  .varStmt "out" (.intLit 0),
  .forLoop none none none
    (.block [.constStmt "x" (.intLit 1),
             .assign "out" (.binop "+" (.ident "out") (.intLit 1)),
             .ifExpr (.binop "==" (.ident "out") (.intLit 2))
               (.block [.controlStmt "break" none]) none]),
  .ident "out"]

/-- Condition-form demo for scope clearing: the body const-declares `x` on
each of its two iterations. -/
def condClearProg : Ast := .block [
  .varStmt "out" (.intLit 0),
  .forLoop (some (.varStmt "n" (.intLit 0)))
    (some (.binop "<" (.ident "n") (.intLit 2)))
    (some (.assign "n" (.binop "+" (.ident "n") (.intLit 1))))
    (.block [.constStmt "x" (.intLit 1),
             .assign "out" (.binop "+" (.ident "out") (.intLit 1))]),
  .ident "out"]

/-- The design document's switch example: cases [1,2] -> "A" and [2] -> "B"
with subject 2. -/
def switchExample : Ast := .switch (.intLit 2)
  [(false, [.intLit 1, .intLit 2], [.strLit "A" none []]),
   (false, [.intLit 2], [.strLit "B" none []])]

/-- An expression that increments the named counter and then yields `v`:
used to count how often the evaluator visits a switch subject/candidate. -/
def tick (c : String) (v : Int) : Ast :=
  .block [.assign c (.binop "+" (.ident c) (.intLit 1)), .intLit v]

/-- The switch example with every evaluation point instrumented; the program
yields [switch result, subject count, case-1 candidate counts, case-2
candidate count]. -/
def switchInstrProg : Ast := .block [
  .varStmt "csub" (.intLit 0),
  .varStmt "c11" (.intLit 0),
  .varStmt "c12" (.intLit 0),
  .varStmt "c2" (.intLit 0),
  .varStmt "res" (.switch (tick "csub" 2)
    [(false, [tick "c11" 1, tick "c12" 2], [.strLit "A" none []]),
     (false, [tick "c2" 2], [.strLit "B" none []])]),
  .listLit [.ident "res", .ident "csub", .ident "c11", .ident "c12", .ident "c2"]]

/-- No case matches: the first of the two default choices runs. -/
def switchDefaultProg : Ast := .switch (.intLit 5)
  [(true, [], [.strLit "D1" none []]),
   (false, [.intLit 1], [.strLit "A" none []]),
   (true, [], [.strLit "D2" none []])]

/-- A matching non-default case wins even against an earlier default. -/
def switchMatchOverDefaultProg : Ast := .switch (.intLit 1)
  [(true, [], [.strLit "D1" none []]),
   (false, [.intLit 1], [.strLit "A" none []])]

/-- No case matches and there is no default: the switch yields nil. -/
def switchNoMatchProg : Ast := .switch (.intLit 5)
  [(false, [.intLit 1], [.strLit "A" none []])]

/-- A root scope binding `sub` to the user-defined function
`sub(a, b) = a - b`. -/
def stSub : EvalState := ⟨[⟨none, [("sub", .func 10 0, false)]⟩]⟩

/-- The design document's pipe example `5 |> sub(10)`. -/
def pipeSubProg : Ast := .pipe [.intLit 5, .call (.ident "sub") [.intLit 10]]

/-- `5 |> listArgs(10, 20, 30)`: the callee observes its argument list. -/
def pipeOrderProg : Ast :=
  .pipe [.intLit 5, .call (.ident "listArgs") [.intLit 10, .intLit 20, .intLit 30]]

/-- `5 |> "o".collect(10, 20)`: a method-style stage observing its
receiver and argument list. -/
def pipeMethodProg : Ast :=
  .pipe [.intLit 5, .objectCall (.strLit "o" none []) "collect" [.intLit 10, .intLit 20]]

/-- `5 |> listArgs`: a bare builtin stage observes its argument list. -/
def pipeBareProg : Ast := .pipe [.intLit 5, .ident "listArgs"]

/-- The design document's bare-stage example `5 |> double`. -/
def pipeDoubleProg : Ast := .pipe [.intLit 5, .ident "double"]

/-- `5 |> 7`: a non-callable bare expression in the first stage after the
source is accepted and becomes the piped value. -/
def pipeSeedProg : Ast := .pipe [.intLit 5, .intLit 7]

/-- `5 |> 7 |> double`: the value seeded by the first stage feeds the next
stage. -/
def pipeSeedUseProg : Ast := .pipe [.intLit 5, .intLit 7, .ident "double"]

/-- `5 |> double |> 7`: a non-callable bare expression in a later stage. -/
def pipeLateProg : Ast := .pipe [.intLit 5, .ident "double", .intLit 7]

/-- The template fragments ["x=", VAR, "!"]. -/
def tmplFrags : List Fragment := [⟨false, "x="⟩, ⟨true, ""⟩, ⟨false, "!"⟩]

/-- The fragments with the expression slot evaluating to the integer 3. -/
def tmplIntProg : Ast := .strLit "" (some tmplFrags) [some (.intLit 3)]

/-- The fragments with an absent expression slot. -/
def tmplAbsentProg : Ast := .strLit "" (some tmplFrags) [none]

/-- The fragments with the expression slot evaluating to a string. -/
def tmplStrProg : Ast := .strLit "" (some tmplFrags) [some (.strLit "hi" none [])]

/-- The fragments with the expression slot raising an error. -/
def tmplErrProg : Ast := .strLit "" (some tmplFrags) [some errCall]

/-- First registered breakpoint: all flags off. -/
def bp1 : Breakpoint := ⟨"main.tm", 3, false, false, false⟩

/-- Second registered breakpoint: all flags on. -/
def bp2 : Breakpoint := ⟨"util.tm", 7, true, true, true⟩

/-! ## Claim theorems -/

/-- Claim C1: every construct that evaluates a sub-node (if condition,
loop body, switch subject or candidate, pipe source or stage, return
expression) returns an Error signal produced by that sub-evaluation
immediately, as the identical error value with no further evaluation (the
resulting state is exactly the state the failing sub-evaluation left); in
particular `for { error() }` yields exactly the value `error()` produces
standalone. -/
theorem c1_error_propagates_unchanged :
    (∀ ctx fuel cond cons alt sid st st' m,
      evalAst ctx fuel cond sid st = (.error m, st') →
      evalAst ctx (fuel + 1) (.ifExpr cond cons alt) sid st = (.error m, st')) ∧
    (∀ ctx fuel body sid latest st st' m,
      evalAst ctx fuel body sid (clearScope st sid) = (.error m, st') →
      evalSimpleForLoop ctx (fuel + 1) body sid latest st = (.error m, st')) ∧
    (∀ ctx fuel subject choices sid st st' m,
      evalAst ctx fuel subject sid st = (.error m, st') →
      evalAst ctx (fuel + 1) (.switch subject choices) sid st = (.error m, st')) ∧
    (∀ ctx fuel value cand cands blk rest original sid st st' m,
      evalAst ctx fuel cand sid st = (.error m, st') →
      evalSwitchCands ctx (fuel + 1) value (cand :: cands) blk rest original sid st
        = (.error m, st')) ∧
    (∀ ctx fuel e0 e1 rest sid st st' m,
      evalAst ctx fuel e0 sid st = (.error m, st') →
      evalAst ctx (fuel + 1) (.pipe (e0 :: e1 :: rest)) sid st = (.error m, st')) ∧
    (∀ ctx fuel nm rest i cur sid st st' m,
      evalAst ctx fuel (.ident nm) sid st = (.error m, st') →
      evalPipeStages ctx (fuel + 1) (.ident nm :: rest) i cur sid st = (.error m, st')) ∧
    (∀ ctx fuel e sid st st' m,
      evalAst ctx fuel e sid st = (.error m, st') →
      evalAst ctx (fuel + 1) (.controlStmt "return" (some e)) sid st = (.error m, st')) ∧
    ((evalAst ctx0 20 forErrorProg 0 st0).fst = .error "boom" ∧
     (evalAst ctx0 20 errCall 0 st0).fst = .error "boom") := by
  refine ⟨?_, ?_, ?_, ?_, ?_, ?_, ?_, ?_⟩
  · intro ctx fuel cond cons alt sid st st' m h
    by_cases hc : ctx.cancelled
    · cases fuel <;> (simp [evalAst, hc] at h ⊢; exact h)
    · simp [evalAst, hc, h, Object.isError]
  · intro ctx fuel body sid latest st st' m h
    simp [evalSimpleForLoop, h]
  · intro ctx fuel subject choices sid st st' m h
    by_cases hc : ctx.cancelled
    · cases fuel <;> (simp [evalAst, hc] at h ⊢; exact h)
    · simp [evalAst, hc, h, Object.isError]
  · intro ctx fuel value cand cands blk rest original sid st st' m h
    simp [evalSwitchCands, h, Object.isError]
  · intro ctx fuel e0 e1 rest sid st st' m h
    by_cases hc : ctx.cancelled
    · cases fuel <;> (simp [evalAst, hc] at h ⊢; exact h)
    · simp [evalAst, hc, h, Object.isError]
  · intro ctx fuel nm rest i cur sid st st' m h
    simp [evalPipeStages, h, Object.isError]
  · intro ctx fuel e sid st st' m h
    by_cases hc : ctx.cancelled
    · cases fuel <;> (simp [evalAst, hc] at h ⊢; exact h)
    · simp [evalAst, hc, h, Object.isError]
  · exact ⟨by with_unfolding_all rfl, by with_unfolding_all rfl⟩

/-- Witness for C1: each propagation conjunct applied at a concrete erroring
sub-expression. -/
theorem c1_witness :
    evalAst ctx0 6 (.ifExpr errCall (.intLit 1) none) 0 st0 = (.error "boom", st0) ∧
    evalSimpleForLoop ctx0 6 (.block [errCall]) 0 .nil st0 = (.error "boom", clearScope st0 0) ∧
    evalAst ctx0 6 (.switch errCall []) 0 st0 = (.error "boom", st0) ∧
    evalSwitchCands ctx0 6 (.int 1) [errCall] [] [] [] 0 st0 = (.error "boom", st0) ∧
    evalAst ctx0 6 (.pipe [errCall, .intLit 1]) 0 st0 = (.error "boom", st0) ∧
    evalPipeStages ctx0 6 [.ident "missing"] 1 none 0 st0
      = (.error "eval error: missing is not defined", st0) ∧
    evalAst ctx0 6 (.controlStmt "return" (some errCall)) 0 st0 = (.error "boom", st0) :=
  ⟨c1_error_propagates_unchanged.1 ctx0 5 errCall (.intLit 1) none 0 st0 st0 "boom"
      (by with_unfolding_all rfl),
   c1_error_propagates_unchanged.2.1 ctx0 5 (.block [errCall]) 0 .nil st0
      (clearScope st0 0) "boom" (by with_unfolding_all rfl),
   c1_error_propagates_unchanged.2.2.1 ctx0 5 errCall [] 0 st0 st0 "boom"
      (by with_unfolding_all rfl),
   c1_error_propagates_unchanged.2.2.2.1 ctx0 5 (.int 1) errCall [] [] [] [] 0 st0 st0 "boom"
      (by with_unfolding_all rfl),
   c1_error_propagates_unchanged.2.2.2.2.1 ctx0 5 errCall (.intLit 1) [] 0 st0 st0 "boom"
      (by with_unfolding_all rfl),
   c1_error_propagates_unchanged.2.2.2.2.2.1 ctx0 5 "missing" [] 1 none 0 st0 st0
      "eval error: missing is not defined" (by with_unfolding_all rfl),
   c1_error_propagates_unchanged.2.2.2.2.2.2.1 ctx0 5 errCall 0 st0 st0 "boom"
      (by with_unfolding_all rfl)⟩

/-- Claim C2: a pipe stage that is a plain call or a method-style call with
explicit arguments invokes the callee on the previous stage's result
inserted strictly first, followed by the explicit arguments in declared
order (`prependObject` is exactly cons). Concretely, `5 |> sub(10)` with
`sub(a,b) = a - b` yields -5, `5 |> listArgs(10,20,30)` invokes the callee
on [5,10,20,30], and the method-style `5 |> "o".collect(10,20)` dispatches
on receiver "o" with arguments [5,10,20]. -/
theorem c2_pipe_prepends_piped_value :
    (∀ slice obj, prependObject slice obj = obj :: slice) ∧
    (∀ ctx fuel function arguments rest i cur sid st st1 st2 f args,
      evalAst ctx fuel function sid st = (f, st1) →
      f.isError = false →
      arguments ≠ [] →
      evalExpressions ctx fuel arguments sid st1 = (args, st2) →
      singletonError args = none →
      evalPipeStages ctx (fuel + 1) (.call function arguments :: rest) i (some cur) sid st =
        (let res := applyFunction f (prependObject args cur)
         if res.isError then (res, st2)
         else evalPipeStages ctx fuel rest (i + 1) (some res) sid st2)) ∧
    (∀ ctx fuel objExpr method arguments rest i cur sid st st1 st2 obj args,
      evalAst ctx fuel objExpr sid st = (obj, st1) →
      obj.isError = false →
      arguments ≠ [] →
      evalExpressions ctx fuel arguments sid st1 = (args, st2) →
      singletonError args = none →
      evalPipeStages ctx (fuel + 1) (.objectCall objExpr method arguments :: rest) i
        (some cur) sid st =
        (let res := evalObjectCallImpl obj method (prependObject args cur)
         if res.isError then (res, st2)
         else evalPipeStages ctx fuel rest (i + 1) (some res) sid st2)) ∧
    (evalAst ctx0 30 pipeSubProg 0 stSub).fst = .int (-5) ∧
    (evalAst ctx0 30 pipeOrderProg 0 st0).fst = .listV [.int 5, .int 10, .int 20, .int 30] ∧
    (evalAst ctx0 30 pipeMethodProg 0 st0).fst = .listV [.str "o", .int 5, .int 10, .int 20] := by
  refine ⟨?_, ?_, ?_, by with_unfolding_all rfl, by with_unfolding_all rfl,
    by with_unfolding_all rfl⟩
  · intro slice obj
    rfl
  · intro ctx fuel function arguments rest i cur sid st st1 st2 f args h1 h2 h3 h4 h5
    cases arguments with
    | nil => exact absurd rfl h3
    | cons a as => simp [evalPipeStages, h1, h2, h4, h5]
  · intro ctx fuel objExpr method arguments rest i cur sid st st1 st2 obj args h1 h2 h3 h4 h5
    cases arguments with
    | nil => exact absurd rfl h3
    | cons a as => simp [evalPipeStages, h1, h2, h4, h5]

/-- Witness for C2: both general stage conjuncts applied at concrete stages,
showing the piped value 5 inserted in front of the explicit argument 10. -/
theorem c2_witness :
    evalPipeStages ctx0 6 [.call (.ident "listArgs") [.intLit 10]] 0 (some (.int 5)) 0 st0
      = (evalPipeStages ctx0 5 [] 1 (some (.listV [.int 5, .int 10])) 0 st0) ∧
    evalPipeStages ctx0 6 [.objectCall (.strLit "o" none []) "collect" [.intLit 10]] 0
      (some (.int 5)) 0 st0
      = (evalPipeStages ctx0 5 [] 1 (some (.listV [.str "o", .int 5, .int 10])) 0 st0) := by
  constructor
  · have h := c2_pipe_prepends_piped_value.2.1 ctx0 5 (.ident "listArgs") [.intLit 10] []
      0 (.int 5) 0 st0 st0 st0 (.builtin 3 "listArgs" 2) [.int 10]
      (by with_unfolding_all rfl) rfl (by simp) (by with_unfolding_all rfl) rfl
    simpa using h
  · have h := c2_pipe_prepends_piped_value.2.2.1 ctx0 5 (.strLit "o" none []) "collect"
      [.intLit 10] [] 0 (.int 5) 0 st0 st0 st0 (.str "o") [.int 10]
      (by with_unfolding_all rfl) rfl (by simp) (by with_unfolding_all rfl) rfl
    simpa using h

/-- Claim C3: a bare pipe stage (not written as a call) that evaluates to a
function or builtin is invoked with the piped value as sole argument when
the Go-level value is non-nil and with no arguments otherwise (`evalAst`
always yields a value, so inside a pipe the sole-argument path applies); a
bare stage evaluating to a non-callable value is accepted only as the very
first stage after the source - where it becomes the piped value - and in any
later stage produces a type error. -/
theorem c3_pipe_bare_stage :
    (evalAst ctx0 30 pipeBareProg 0 st0).fst = .listV [.int 5] ∧
    (evalAst ctx0 30 pipeDoubleProg 0 st0).fst = .int 10 ∧
    (evalPipeStages ctx0 10 [.ident "listArgs"] 0 none 0 st0).fst = .listV [] ∧
    (evalAst ctx0 30 pipeSeedProg 0 st0).fst = .int 7 ∧
    (evalAst ctx0 30 pipeSeedUseProg 0 st0).fst = .int 14 ∧
    (evalAst ctx0 30 pipeLateProg 0 st0).fst
      = .error "type error: unexpected int object in pipe expression" := by
  refine ⟨?_, ?_, ?_, ?_, ?_, ?_⟩ <;> with_unfolding_all rfl

/-- Claim C4: the claim states that looking up any registered breakpoint by
its own (file, line) pair returns that breakpoint's flag values. The code
violates it: `New` (evaluator.go line 75) stores the address of the shared
range loop variable under every key, so every lookup dereferences to the
LAST registered breakpoint. With two breakpoints carrying different flags,
looking up the first one by its own key yields the second one's flags. -/
theorem c4_breakpoint_lookup_returns_last :
    getBreakpoint (newBreakpointTable [bp1, bp2]) bp1.file bp1.line = some bp2 ∧
    getBreakpoint (newBreakpointTable [bp1, bp2]) bp2.file bp2.line = some bp2 ∧
    bp2.stop ≠ bp1.stop ∧
    getBreakpoint (newBreakpointTable [bp1, bp2]) bp1.file bp1.line ≠ some bp1 := by
  refine ⟨?_, ?_, ?_, ?_⟩ <;> decide

/-- Claim C5: the switch subject is evaluated exactly once, candidates are
evaluated left-to-right and cases top-to-bottom, the block of the first
candidate structurally equal to the subject runs with no later candidate
evaluated, the first default block runs only when no candidate matched, and
a switch with no match and no default yields nil. With cases [1,2] -> A and
[2] -> B and subject 2, A is selected; the instrumented variant counts every
evaluation: the subject once, the two candidates of the first case once
each, the candidate of the second case never. -/
theorem c5_switch_first_match_wins :
    (evalAst ctx0 20 switchExample 0 st0).fst = .str "A" ∧
    (evalAst ctx0 40 switchInstrProg 0 st0).fst
      = .listV [.str "A", .int 1, .int 1, .int 1, .int 0] ∧
    (evalAst ctx0 20 switchDefaultProg 0 st0).fst = .str "D1" ∧
    (evalAst ctx0 20 switchMatchOverDefaultProg 0 st0).fst = .str "A" ∧
    (evalAst ctx0 20 switchNoMatchProg 0 st0).fst = .nil := by
  refine ⟨?_, ?_, ?_, ?_, ?_⟩ <;> with_unfolding_all rfl

/-- Claim C6: the condition-form for loop runs init once, then per
iteration clears the loop scope, evaluates the condition in the outer for
scope and - only when truthy - the body in the loop scope followed by the
post statement in the outer scope; it ends when the condition is falsy or on
break, yielding the last ordinary body result (nil when the body never ran).
The design document's example `for i := 0; i < 3; i := i + 1 { sum = sum + i }`
runs the body exactly 3 times and leaves sum == 3. -/
theorem c6_condition_form_loop :
    (evalAst ctx0 40 sumProg 0 st0).fst = .int 3 ∧
    (evalAst ctx0 60 sumCountProg 0 st0).fst = .listV [.int 3, .int 3] ∧
    (evalAst ctx0 40 zeroIterProg 0 st0).fst = .nil ∧
    (∀ ctx fuel cond post body forSid loopSid latest st st' c,
      evalAst ctx fuel cond forSid (clearScope st loopSid) = (c, st') →
      c.isError = false → c.isTruthy = false →
      evalCondForLoop ctx (fuel + 1) cond post body forSid loopSid latest st
        = (latest, st')) ∧
    (∀ ctx fuel cond post body forSid loopSid latest st st1 st2 c bv,
      evalAst ctx fuel cond forSid (clearScope st loopSid) = (c, st1) →
      c.isError = false → c.isTruthy = true →
      evalAst ctx fuel body loopSid st1 = (.control "break" bv, st2) →
      evalCondForLoop ctx (fuel + 1) cond post body forSid loopSid latest st
        = (latest, st2)) := by
  refine ⟨by with_unfolding_all rfl, by with_unfolding_all rfl, by with_unfolding_all rfl,
    ?_, ?_⟩
  · intro ctx fuel cond post body forSid loopSid latest st st' c h he ht
    simp [evalCondForLoop, h, he, ht]
  · intro ctx fuel cond post body forSid loopSid latest st st1 st2 c bv h he ht hb
    simp [evalCondForLoop, h, he, ht, hb]

/-- Witness for C6: the falsy-condition conjunct and the break conjunct
applied at concrete loops. -/
theorem c6_witness :
    evalCondForLoop ctx0 6 (.boolLit false) none (.intLit 1) 0 0 .nil st0
      = (.nil, clearScope st0 0) ∧
    evalCondForLoop ctx0 6 (.boolLit true) none (.controlStmt "break" none) 0 0
      (.int 42) st0 = (.int 42, clearScope st0 0) :=
  ⟨c6_condition_form_loop.2.2.2.1 ctx0 5 (.boolLit false) none (.intLit 1) 0 0 .nil st0
      (clearScope st0 0) (.bool false) (by with_unfolding_all rfl) rfl rfl,
   c6_condition_form_loop.2.2.2.2 ctx0 5 (.boolLit true) none (.controlStmt "break" none)
      0 0 (.int 42) st0 (clearScope st0 0) (clearScope st0 0) (.bool true) .nil
      (by with_unfolding_all rfl) rfl rfl (by with_unfolding_all rfl)⟩

/-- Claim C7: in all three for-loop forms the inner loop scope is cleared at
the top of every iteration without severing the parent link: `clearScope`
empties exactly the one frame, keeps its parent pointer and every other
frame; and in each loop form a body that const-declares the same name every
iteration (which would fail with AlreadyDeclared were the scope not cleared)
while mutating an outer counter through the parent link completes normally. -/
theorem c7_loop_scope_cleared_each_iteration :
    (∀ st sid, (getFrame (clearScope st sid) sid).vars = [] ∧
      (getFrame (clearScope st sid) sid).parent = (getFrame st sid).parent ∧
      ∀ j, j ≠ sid → getFrame (clearScope st sid) j = getFrame st j) ∧
    (evalAst ctx0 40 iterClearProg 0 st0).fst = .int 2 ∧
    (evalAst ctx0 40 simpleClearProg 0 st0).fst = .int 2 ∧
    (evalAst ctx0 40 condClearProg 0 st0).fst = .int 2 := by
  refine ⟨?_, by with_unfolding_all rfl, by with_unfolding_all rfl, by with_unfolding_all rfl⟩
  intro st sid
  refine ⟨?_, ?_, ?_⟩
  · by_cases hlt : sid < st.frames.length
    · simp [clearScope, setFrame, getFrame, List.get?_eq_getElem?, List.getElem?_set, hlt]
    · simp [clearScope, setFrame, getFrame, List.get?_eq_getElem?, List.getElem?_set, hlt,
        List.getElem?_eq_none (Nat.le_of_not_lt hlt)]
  · by_cases hlt : sid < st.frames.length
    · simp [clearScope, setFrame, getFrame, List.get?_eq_getElem?, List.getElem?_set, hlt]
    · simp [clearScope, setFrame, getFrame, List.get?_eq_getElem?, List.getElem?_set, hlt,
        List.getElem?_eq_none (Nat.le_of_not_lt hlt)]
  · intro j hj
    simp [clearScope, setFrame, getFrame, List.get?_eq_getElem?,
      List.getElem?_set_ne (Ne.symm hj)]

/-- Witness for C7: the clear lemma applied at a concrete state, scope and
distinct frame index. -/
theorem c7_witness :
    (getFrame (clearScope st0 0) 0).vars = [] ∧
    getFrame (clearScope st0 0) 1 = getFrame st0 1 :=
  ⟨(c7_loop_scope_cleared_each_iteration.1 st0 0).1,
   (c7_loop_scope_cleared_each_iteration.1 st0 0).2.2 1 (by decide)⟩

/-- Claim C8: every call to `Evaluate` first checks the cancellation token;
with an already-cancelled context it returns an Error carrying the
cancellation cause at once, with the state untouched - no dispatch and no
sub-evaluation happens, for every node, scope and fuel. -/
theorem c8_cancellation_checked_before_dispatch (ctx : Ctx) (fuel : Nat) (node : Ast)
    (sid : Nat) (st : EvalState) (h : ctx.cancelled = true) :
    evalAst ctx fuel node sid st = (.error ctx.cancelCause, st) := by
  cases fuel <;> simp [evalAst, h]

/-- Witness for C8: a cancelled context aborts even a compound program
immediately. -/
theorem c8_witness :
    evalAst ctxCancelled 5 sumProg 0 st0 = (.error "context canceled", st0) :=
  c8_cancellation_checked_before_dispatch ctxCancelled 5 sumProg 0 st0 rfl

/-- Claim C9: a templated string literal concatenates its fragments in
original order: an absent expression slot contributes empty text, a string
result splices its raw text, any other value its human-readable
representation, and an error from an embedded expression aborts the whole
literal with that error. Fragments ["x=", VAR, "!"] give "x=3!" for an
integer-3 expression, "x=!" for an absent slot, "x=hi!" for a string
expression; a run of literal fragments joins to exactly their concatenation. -/
theorem c9_string_template :
    (evalAst ctx0 20 tmplIntProg 0 st0).fst = .str "x=3!" ∧
    (evalAst ctx0 20 tmplAbsentProg 0 st0).fst = .str "x=!" ∧
    (evalAst ctx0 20 tmplStrProg 0 st0).fst = .str "x=hi!" ∧
    (evalAst ctx0 20 tmplErrProg 0 st0).fst = .error "boom" ∧
    (∀ ctx texts parts sid st fuel, texts.length < fuel →
      evalFragments ctx fuel (texts.map fun t => (⟨false, t⟩ : Fragment)) [] 0 parts sid st
        = (.str (String.join (parts ++ texts)), st)) := by
  refine ⟨by with_unfolding_all rfl, by with_unfolding_all rfl, by with_unfolding_all rfl,
    by with_unfolding_all rfl, ?_⟩
  intro ctx texts
  induction texts with
  | nil =>
      intro parts sid st fuel h
      cases fuel with
      | zero => omega
      | succ f => simp [evalFragments]
  | cons t ts ih =>
      intro parts sid st fuel h
      cases fuel with
      | zero => omega
      | succ f =>
          have hlt : ts.length < f := by
            simp [List.length_cons] at h
            omega
          simp [evalFragments, ih (parts ++ [t]) sid st f hlt, List.append_assoc]

/-- Witness for C9: the literal-concatenation conjunct applied at two
concrete fragments. -/
theorem c9_witness :
    evalFragments ctx0 4 [⟨false, "ab"⟩, ⟨false, "cd"⟩] [] 0 [] 0 st0
      = (.str "abcd", st0) := by
  have h := c9_string_template.2.2.2.2 ctx0 ["ab", "cd"] [] 0 st0 4 (by decide)
  simpa using h

/-- Claim C10: `Builtin.Equals` yields True exactly when the argument is the
identical builtin instance (pointer identity, modelled as equality of the
full pointer triple); builtins at distinct allocations are never equal even
with the same name and wrapped function, and the structural equality used by
switch agrees with identity on builtins. -/
theorem c10_builtin_equals_is_identity :
    (∀ id name fnId other,
      builtinEquals id name fnId other = .bool true ↔ other = .builtin id name fnId) ∧
    (∀ id name fnId other, other ≠ Object.builtin id name fnId →
      builtinEquals id name fnId other = .bool false) ∧
    (∀ i j n f, i ≠ j → builtinEquals i n f (.builtin j n f) = .bool false) ∧
    (∀ id name fnId o,
      objectEquals (.builtin id name fnId) o = true ↔ o = .builtin id name fnId) := by
  have key : ∀ id name fnId other,
      builtinEquals id name fnId other = .bool true ↔ other = .builtin id name fnId := by
    intro id name fnId other
    cases other <;> simp [builtinEquals]
    case builtin j m g =>
      constructor
      · rintro ⟨h1, h2, h3⟩
        exact ⟨h1.symm, h2.symm, h3.symm⟩
      · rintro ⟨h1, h2, h3⟩
        exact ⟨h1.symm, h2.symm, h3.symm⟩
  have notTrue : ∀ id name fnId other, builtinEquals id name fnId other = .bool true ∨
      builtinEquals id name fnId other = .bool false := by
    intro id name fnId other
    cases other <;> simp [builtinEquals]
    case builtin j m g =>
      intro _ _
      exact eq_or_ne fnId g
  refine ⟨key, ?_, ?_, ?_⟩
  · intro id name fnId other hne
    rcases notTrue id name fnId other with h | h
    · exact absurd ((key id name fnId other).mp h) hne
    · exact h
  · intro i j n f hne
    rcases notTrue i n f (.builtin j n f) with h | h
    · have hb := (key i n f (.builtin j n f)).mp h
      injection hb with h1 h2 h3
      exact absurd h1.symm hne
    · exact h
  · intro id name fnId o
    rcases notTrue id name fnId o with h | h
    · have ho := (key id name fnId o).mp h
      subst ho
      simp [objectEquals, h]
    · constructor
      · intro hh
        exfalso
        simp [objectEquals, h] at hh
      · intro ho
        have ht := (key id name fnId o).mpr ho
        rw [ht] at h
        simp at h

/-- Witness for C10: two builtins sharing name and wrapped function but
allocated separately are unequal; a builtin equals itself. -/
theorem c10_witness :
    builtinEquals 1 "sub" 0 (.builtin 2 "sub" 0) = .bool false ∧
    builtinEquals 1 "sub" 0 (.builtin 1 "sub" 0) = .bool true :=
  ⟨c10_builtin_equals_is_identity.2.2.1 1 2 "sub" 0 (by decide),
   (c10_builtin_equals_is_identity.1 1 "sub" 0 (.builtin 1 "sub" 0)).mpr rfl⟩

end Tamarin
